import Mathlib

/-!
Verification development for the Drupal-Scripts repository (`main.go`).

The Go program is a sequential macOS setup wrapper: it selects a container
backend, checks/installs prerequisite tools via Homebrew, scaffolds a Drupal
project with Composer, rewrites a generated settings file, and drives DDEV /
Drush through a fixed sequence of external commands.

The embedding below models Go strings as `List Char`, external-command
outcomes as boolean oracle fields in an environment record, the filesystem as
an explicit state record, and `main`'s control flow as a function from the
environment to an exit code together with the trace of executed steps.
-/

namespace Drupal

/-! ### Go string primitives (`strings` package), modelled on `List Char` -/

/-- Go `unicode.IsSpace`: the Unicode White_Space property
(`\t \n \v \f \r` space, NEL, NBSP, and the Unicode space code points). -/
def goIsSpace (c : Char) : Bool :=
  c.toNat = 0x09 || c.toNat = 0x0A || c.toNat = 0x0B || c.toNat = 0x0C ||
  c.toNat = 0x0D || c.toNat = 0x20 || c.toNat = 0x85 || c.toNat = 0xA0 ||
  c.toNat = 0x1680 || (0x2000 ≤ c.toNat && c.toNat ≤ 0x200A) ||
  c.toNat = 0x2028 || c.toNat = 0x2029 || c.toNat = 0x202F ||
  c.toNat = 0x205F || c.toNat = 0x3000

/-- Drop leading white space (helper for `trimSpace`). -/
def trimLeft : List Char → List Char
  | [] => []
  | c :: rest => if goIsSpace c then trimLeft rest else c :: rest

/-- Go `strings.TrimSpace`: drop leading and trailing white space. -/
def trimSpace (s : List Char) : List Char :=
  ((trimLeft ((trimLeft s).reverse)).reverse)

/-- Go `strings.ToLower` on one character, modelled on the ASCII range
(the only range exercised by this program's literals and examples): map
`A`-`Z` (code points 65-90) to `a`-`z`. -/
def goToLowerChar (c : Char) : Char :=
  if 65 ≤ c.toNat ∧ c.toNat ≤ 90 then Char.ofNat (c.toNat + 32) else c

/-- Go `strings.ToLower`. -/
def goToLower (s : List Char) : List Char :=
  s.map goToLowerChar

/-- Boolean prefix test on character lists (Go `strings.HasPrefix`). -/
def strHasPref : List Char → List Char → Bool
  | [], _ => true
  | _ :: _, [] => false
  | a :: as, b :: bs => a == b && strHasPref as bs

/-- Fuel-indexed scanner for `strings.ReplaceAll`: scan left to right and
replace each leftmost non-overlapping occurrence of `old` by `new`.
The fuel is an upper bound on the number of scan steps; every call site
supplies `s.length`, which suffices whenever `old` is non-empty (as it is at
every use in the program). -/
def replAux : Nat → List Char → List Char → List Char → List Char
  | 0, s, _, _ => s
  | fuel + 1, s, old, new =>
    match s with
    | [] => []
    | c :: rest =>
      if strHasPref old (c :: rest) then
        new ++ replAux fuel (List.drop old.length (c :: rest)) old new
      else
        c :: replAux fuel rest old new

/-- Go `strings.ReplaceAll old new` (for non-empty `old`, which is the case
at both call sites in `main.go`: the settings-path fragment and `" "`). -/
def goReplaceAll (s old new : List Char) : List Char :=
  replAux s.length s old new

/-! ### Basic lemmas about the string primitives -/

theorem strHasPref_append (l t : List Char) : strHasPref l (l ++ t) = true := by
  induction l with
  | nil => rfl
  | cons a as ih => simp [strHasPref, ih]

theorem strHasPref_length {l s : List Char} (h : strHasPref l s = true) :
    l.length ≤ s.length := by
  induction l generalizing s with
  | nil => simp
  | cons a as ih =>
    cases s with
    | nil => simp [strHasPref] at h
    | cons b bs =>
      simp only [strHasPref, Bool.and_eq_true] at h
      simpa [List.length_cons] using Nat.succ_le_succ (ih h.2)

theorem replAux_nil (fuel : Nat) (old new : List Char) :
    replAux fuel [] old new = [] := by
  cases fuel <;> rfl

theorem replAux_fuel_irrel {old : List Char} (hold : old ≠ [])
    (new : List Char) :
    ∀ (fuel : Nat) (s : List Char) (fuel' : Nat), s.length ≤ fuel →
      s.length ≤ fuel' → replAux fuel s old new = replAux fuel' s old new := by
  intro fuel
  induction fuel with
  | zero =>
    intro s fuel' h _
    have : s = [] := List.length_eq_zero.mp (Nat.le_zero.mp h)
    subst this
    simp [replAux_nil]
  | succ f ih =>
    intro s fuel' h h'
    cases s with
    | nil => simp [replAux_nil]
    | cons c rest =>
      cases fuel' with
      | zero => simp at h'
      | succ f' =>
        have holdLen : 1 ≤ old.length := by
          cases old with
          | nil => exact absurd rfl hold
          | cons _ _ => simp
        simp only [List.length_cons] at h h'
        simp only [replAux]
        by_cases hp : strHasPref old (c :: rest) = true
        · simp only [hp, if_true]
          have hdropLen : (List.drop old.length (c :: rest)).length ≤ f := by
            simp only [List.length_drop, List.length_cons]
            omega
          have hdropLen' : (List.drop old.length (c :: rest)).length ≤ f' := by
            simp only [List.length_drop, List.length_cons]
            omega
          rw [ih (List.drop old.length (c :: rest)) f' hdropLen hdropLen']
        · simp only [hp, if_false, Bool.false_eq_true]
          have hr : rest.length ≤ f := by omega
          have hr' : rest.length ≤ f' := by omega
          rw [ih rest f' hr hr']

/-- If `old` occurs nowhere in `s`, the scan is the identity. -/
theorem replAux_no_occ {old : List Char} (new : List Char) :
    ∀ (s : List Char) (fuel : Nat), s.length ≤ fuel →
      (∀ i, strHasPref old (s.drop i) = false) →
      replAux fuel s old new = s := by
  intro s
  induction s with
  | nil => intro fuel _ _; exact replAux_nil fuel old new
  | cons c rest ih =>
    intro fuel h hno
    cases fuel with
    | zero => simp at h
    | succ f =>
      have h0 := hno 0
      simp only [List.drop_zero] at h0
      simp only [replAux, h0, Bool.false_eq_true, if_false]
      have : replAux f rest old new = rest := by
        refine ih f ?_ ?_
        · simp only [List.length_cons] at h; omega
        · intro i
          have := hno (i + 1)
          simpa [List.drop_succ_cons] using this
      rw [this]

/-- Scanning `a ++ old ++ b` when no occurrence of `old` starts inside `a`:
the scan copies `a`, replaces the explicit occurrence, and continues on `b`. -/
theorem replAux_split {old : List Char} (hold : old ≠ []) (new : List Char) :
    ∀ (a b : List Char) (fuel : Nat), (a ++ old ++ b).length ≤ fuel →
      (∀ i, i < a.length → strHasPref old ((a ++ old ++ b).drop i) = false) →
      replAux fuel (a ++ old ++ b) old new = a ++ new ++ goReplaceAll b old new := by
  intro a
  induction a with
  | nil =>
    intro b fuel h _
    have holdLen : 1 ≤ old.length := by
      cases old with
      | nil => exact absurd rfl hold
      | cons _ _ => simp
    simp only [List.nil_append, List.length_append] at h ⊢
    cases fuel with
    | zero => omega
    | succ f =>
      cases hov : old with
      | nil => exact absurd hov hold
      | cons o os =>
        rw [← hov]
        have hcons : old ++ b = (o :: (os ++ b)) := by simp [hov]
        rw [hcons]
        simp only [replAux]
        have hpref : strHasPref old (o :: (os ++ b)) = true := by
          rw [← hcons]; exact strHasPref_append old b
        simp only [hpref, if_true]
        rw [← hcons, List.drop_left]
        have hbf : b.length ≤ f := by omega
        rw [replAux_fuel_irrel hold new f b b.length hbf (Nat.le_refl _)]
        rfl
  | cons c a' ih =>
    intro b fuel h hno
    simp only [List.cons_append, List.length_cons] at h ⊢
    cases fuel with
    | zero => omega
    | succ f =>
      simp only [replAux]
      have h0 := hno 0 (by simp)
      simp only [List.drop_zero, List.cons_append] at h0
      simp only [h0, Bool.false_eq_true, if_false]
      have htail : replAux f (a' ++ old ++ b) old new
          = a' ++ new ++ goReplaceAll b old new := by
        refine ih b f (by omega) ?_
        intro i hi
        have := hno (i + 1) (by simpa using Nat.succ_lt_succ hi)
        simpa [List.cons_append, List.drop_succ_cons] using this
      rw [htail]

/-- Number of positions at which `old` occurs in `s`. -/
def countOcc (old s : List Char) : Nat :=
  ((List.range (s.length + 1)).filter (fun i => strHasPref old (s.drop i))).length

theorem countOcc_one_unique {old s : List Char} (hold : old ≠ [])
    (h : countOcc old s = 1) :
    ∀ i j, strHasPref old (s.drop i) = true → strHasPref old (s.drop j) = true →
      i = j := by
  intro i j hi hj
  have holdLen : 1 ≤ old.length := by
    cases old with
    | nil => exact absurd rfl hold
    | cons _ _ => simp
  have hmem : ∀ k, strHasPref old (s.drop k) = true →
      k ∈ (List.range (s.length + 1)).filter (fun i => strHasPref old (s.drop i)) := by
    intro k hk
    have hkLen : old.length ≤ (s.drop k).length := strHasPref_length hk
    simp only [List.length_drop] at hkLen
    have : k < s.length + 1 := by omega
    simp only [List.mem_filter, List.mem_range]
    exact ⟨this, hk⟩
  obtain ⟨x, hx⟩ := List.length_eq_one.mp h
  have hix := hmem i hi
  have hjx := hmem j hj
  rw [hx] at hix hjx
  simp only [List.mem_singleton] at hix hjx
  omega

/-- A unique occurrence splits `s` as `a ++ old ++ b` where `a.length` is the
occurrence position; `goReplaceAll` then performs exactly that one swap. -/
theorem goReplaceAll_unique_occ {old new s a b : List Char} (hold : old ≠ [])
    (hs : s = a ++ old ++ b) (hcount : countOcc old s = 1) :
    goReplaceAll s old new = a ++ new ++ b := by
  subst hs
  have huniq := countOcc_one_unique hold hcount
  have hataLen : strHasPref old ((a ++ old ++ b).drop a.length) = true := by
    rw [List.append_assoc, List.drop_left]
    exact strHasPref_append old b
  have hnoEarly : ∀ i, i < a.length →
      strHasPref old ((a ++ old ++ b).drop i) = false := by
    intro i hi
    by_contra hcon
    rw [Bool.not_eq_false] at hcon
    have := huniq i a.length hcon hataLen
    omega
  unfold goReplaceAll
  rw [replAux_split hold new a b _ (Nat.le_refl _) hnoEarly]
  have hnob : ∀ j, strHasPref old (b.drop j) = false := by
    intro j
    by_contra hcon
    rw [Bool.not_eq_false] at hcon
    have hdropEq : (a ++ old ++ b).drop (a.length + old.length + j) = b.drop j := by
      rw [List.append_assoc]
      rw [Nat.add_assoc, List.drop_append_eq_append_drop]
      simp [List.drop_drop, List.drop_left]
    have hocc : strHasPref old ((a ++ old ++ b).drop (a.length + old.length + j)) = true := by
      rw [hdropEq]; exact hcon
    have := huniq (a.length + old.length + j) a.length hocc hataLen
    have holdLen : 1 ≤ old.length := by
      cases old with
      | nil => exact absurd rfl hold
      | cons _ _ => simp
    omega
  unfold goReplaceAll
  rw [replAux_no_occ new b b.length (Nat.le_refl _) hnob]

/-- Replacing a single character by a single character is a character map. -/
theorem goReplaceAll_single (x y : Char) :
    ∀ s : List Char, goReplaceAll s [x] [y]
      = s.map (fun c => if c = x then y else c) := by
  have key : ∀ (s : List Char) (fuel : Nat), s.length ≤ fuel →
      replAux fuel s [x] [y] = s.map (fun c => if c = x then y else c) := by
    intro s
    induction s with
    | nil => intro fuel _; simp [replAux_nil]
    | cons c rest ih =>
      intro fuel h
      cases fuel with
      | zero => simp at h
      | succ f =>
        simp only [List.length_cons] at h
        have hsp : strHasPref [x] (c :: rest) = (x == c) := by
          simp [strHasPref]
        by_cases hc : c = x
        · subst hc
          simp only [replAux, hsp, beq_self_eq_true, if_true, List.length_cons,
            List.length_nil, Nat.zero_add, List.drop_succ_cons, List.drop_zero]
          rw [ih f (by omega)]
          simp
        · have hxc : (x == c) = false := by
            simp only [beq_eq_false_iff_ne, ne_eq]
            exact fun hcx => hc hcx.symm
          simp only [replAux, hsp, hxc, Bool.false_eq_true, if_false]
          rw [ih f (by omega)]
          simp [hc]
  intro s
  exact key s s.length (Nat.le_refl _)

/-! ### JSON values and the `getSiteURL` extraction (`main.go` lines 449-477)

`ddev describe --json-output` output is parsed with `json.Unmarshal` into a
`map from string keys to dynamic values` value; a parse failure (malformed input, or a
top-level value that is not an object) is modelled as `none`. Numeric
payloads are irrelevant to the extraction (only the type tag matters), so
numbers carry an integer. -/

inductive Json where
  | null : Json
  | boolean : Bool → Json
  | num : Int → Json
  | str : String → Json
  | arr : List Json → Json
  | obj : List (String × Json) → Json

/-- Lookup in an unmarshalled JSON object. Go's `map from string keys to dynamic values`
keeps the last binding for a duplicated key, hence the right-biased scan. -/
def jsonLookup : List (String × Json) → String → Option Json
  | [], _ => none
  | (k', v) :: rest, k =>
    match jsonLookup rest k with
    | some w => some w
    | none => if k' = k then some v else none

/-- The extraction chain of `getSiteURL` (lines 460-477): type-assert
`result["raw"]` to a non-empty array, its first element to an object, and
that object's `"https_url"` to a string; any failed assertion yields `""`.
`none` is a failed `json.Unmarshal` (line 461), which also yields `""`. -/
def getSiteURLExtract : Option Json → String
  | none => ""
  | some j =>
    match j with
    | Json.obj fields =>
      match jsonLookup fields "raw" with
      | some (Json.arr (first :: _)) =>
        match first with
        | Json.obj project =>
          match jsonLookup project "https_url" with
          | some (Json.str httpsURL) => httpsURL
          | _ => ""
        | _ => ""
      | _ => ""
    | _ => ""

/-- Modelled from the spec's wording for the success shape: the document is
an object whose key `"raw"` is bound to a non-empty array whose first
element is an object with a string-valued `"https_url"` field equal to `s`. -/
def SpecNestedURL (oj : Option Json) (s : String) : Prop :=
  ∃ fields project rest, oj = some (Json.obj fields) ∧
    jsonLookup fields "raw" = some (Json.arr (Json.obj project :: rest)) ∧
    jsonLookup project "https_url" = some (Json.str s)

/-! ### Filesystem state and `setupDrupalSettings` (`main.go` lines 236-277) -/

/-- Paths are slash-joined strings; `filepath.Join` on clean relative
segments concatenates with `/`. -/
def joinPath (a b : String) : String := a ++ "/" ++ b

/-- The filesystem fragment the program touches: which directories exist and
which files exist with what content. -/
structure FSState where
  dirs : List String
  files : List (String × List Char)

/-- Whether `path` exists (as directory or file); backs the `os.Stat` checks. -/
def statExists (fs : FSState) (path : String) : Bool :=
  fs.dirs.contains path || (fs.files.map Prod.fst).contains path

/-- Model of `os.MkdirAll`: on success the directory exists afterwards. The boolean
oracle `ok` stands for the external outcome of the call. -/
def osMkdirAll (fs : FSState) (ok : Bool) (path : String) : Option FSState :=
  if ok then some { fs with dirs := path :: fs.dirs } else none

/-- Model of `os.ReadFile`: the content of `path`, or a read error if absent. -/
def osReadFile (fs : FSState) (path : String) : Option (List Char) :=
  (fs.files.find? (fun f => f.1 = path)).map Prod.snd

/-- Model of `os.WriteFile`: on success the file exists with the new content. -/
def osWriteFile (fs : FSState) (ok : Bool) (path : String)
    (content : List Char) : Option FSState :=
  if ok then some { fs with files := (path, content) :: fs.files } else none

/-- The literal fragment replaced in `settings.ddev.php` (line 252). -/
def oldSyncFrag : List Char := "sites/default/files/sync".toList

/-- Its replacement (line 252). -/
def newSyncFrag : List Char := "../config/sync".toList

/-- The pure content rewrite of `setupDrupalSettings` (line 252):
`strings.ReplaceAll(content, "sites/default/files/sync", "../config/sync")`. -/
def settingsRewrite (content : List Char) : List Char :=
  goReplaceAll content oldSyncFrag newSyncFrag

/-- Error exits of `setupDrupalSettings`, one per `return err` site. -/
inductive SettingsErr where
  | mkdirFailed
  | readFailed
  | writeSettingsFailed
  | writeConfigFailed
  | configDirNotFound
deriving DecidableEq

/-- Oracle outcomes for the filesystem calls inside `setupDrupalSettings`. -/
structure SettingsOracle where
  mkdirOk : Bool
  writeSettingsOk : Bool
  writeIndicatorOk : Bool
  writeSettingsYmlOk : Bool

/-- Model of `setupDrupalSettings` (lines 236-277): create `config/sync`, rewrite the
sync path inside `web/sites/default/settings.ddev.php`, write the two
embedded payloads (`indicatorYML`, `settingsYML`) into `config/sync`, then
re-check that `config/sync` exists before reporting success. -/
def setupDrupalSettings (projectPath : String) (o : SettingsOracle)
    (indicatorYML settingsYML : List Char) (fs : FSState) :
    Except SettingsErr FSState :=
  let configSyncPath := joinPath (joinPath projectPath "config") "sync"
  match osMkdirAll fs o.mkdirOk configSyncPath with
  | none => Except.error SettingsErr.mkdirFailed
  | some fs1 =>
    let settingsPath :=
      joinPath (joinPath (joinPath (joinPath projectPath "web") "sites") "default")
        "settings.ddev.php"
    match osReadFile fs1 settingsPath with
    | none => Except.error SettingsErr.readFailed
    | some content =>
      let newContent := settingsRewrite content
      match osWriteFile fs1 o.writeSettingsOk settingsPath newContent with
      | none => Except.error SettingsErr.writeSettingsFailed
      | some fs2 =>
        let indicatorPath := joinPath configSyncPath "environment_indicator.indicator.yml"
        match osWriteFile fs2 o.writeIndicatorOk indicatorPath indicatorYML with
        | none => Except.error SettingsErr.writeConfigFailed
        | some fs3 =>
          let settingsConfigPath := joinPath configSyncPath "environment_indicator.settings.yml"
          match osWriteFile fs3 o.writeSettingsYmlOk settingsConfigPath settingsYML with
          | none => Except.error SettingsErr.writeConfigFailed
          | some fs4 =>
            if statExists fs4 configSyncPath = false then
              Except.error SettingsErr.configDirNotFound
            else
              Except.ok fs4

/-! ### External commands, step tags, and the environment oracle -/

/-- External processes / process-affecting calls the program can invoke. -/
inductive ExtCmd where
  | lookPath : String → ExtCmd
  | brewList : String → ExtCmd
  | brewInstall : String → ExtCmd
  | dockerInfo : ExtCmd
  | colimaStatus : ExtCmd
  | colimaLaunch : ExtCmd
  | ddevVersionCmd : ExtCmd
  | getwd : ExtCmd
  | composerCreate : ExtCmd
  | ddevConfig : ExtCmd
  | ddevLaunch : ExtCmd
  | ddevRun : List String → ExtCmd
  | drushSiteInstall : ExtCmd
  | drushEnableModules : ExtCmd
  | drushConfigImport : ExtCmd
  | drushGenUsers : ExtCmd
  | drushGenContent : ExtCmd
  | ddevDescribe : ExtCmd
deriving DecidableEq

/-- Holds exactly for the commands that install or start a tool (the
"install actions" of the idempotence property). -/
def isInstallAction : ExtCmd → Bool
  | ExtCmd.brewInstall _ => true
  | ExtCmd.colimaLaunch => true
  | _ => false

/-- Coarse step tags, one per call made by `main` (lines 518-597). -/
inductive Step where
  | selectProvider
  | checkPrereqs
  | homebrewCheck
  | dockerInstall
  | dockerCheck
  | colimaInstall
  | colimaCheck
  | colimaStart
  | ddevInstall
  | ddevVersionCheck
  | projectInit
  | ddevInit
  | ddevStart
  | depsInstall
  | settingsSetup
  | siteInstall
  | modulesEnable
  | configImport
  | contentGenerate
  | siteURLQuery
  | finalInstructions
deriving DecidableEq

/-- Oracle for one concrete run: interactive inputs, outcomes of every
external command, and the initial filesystem fragment. Each field stands
for what the corresponding check or external process would report. -/
structure Env where
  brewInstalled : Bool
  providerInput : List Char
  dockerBrewInstalled : Bool
  brewInstallDockerOk : Bool
  dockerRunning : Bool
  colimaInstalled : Bool
  brewInstallColimaOk : Bool
  colimaRunning1 : Bool
  colimaRunningInStart : Bool
  colimaStartOk : Bool
  colimaRunning2 : Bool
  ddevInstalled : Bool
  brewInstallDdevOk : Bool
  ddevOnPath2 : Bool
  projectNameInput : List Char
  getwdOk : Bool
  cwd : String
  composerCreateOk : Bool
  ddevDirExists : Bool
  ddevConfigOk : Bool
  ddevStartOk : Bool
  ddevCmdOk : List String → Bool
  fs0 : FSState
  mkdirOk : Bool
  writeSettingsOk : Bool
  writeIndicatorOk : Bool
  writeSettingsYmlOk : Bool
  indicatorYML : List Char
  settingsYML : List Char
  siteInstallOk : Bool
  modulesOk : Bool
  configImportOk : Bool
  genResponse : List Char
  genUsersOk : Bool
  genContentOk : Bool
  describeOk : Bool
  describeJson : Option Json

/-- Success of an `Except` as a boolean. -/
def exceptOk {ε α : Type} : Except ε α → Bool
  | Except.ok _ => true
  | Except.error _ => false

/-! ### The individual functions of `main.go` -/

/-- Model of `checkHomebrew` (lines 68-76). -/
def checkHomebrew (e : Env) : Except Unit Unit × List ExtCmd :=
  if e.brewInstalled = false then (Except.error (), [ExtCmd.lookPath "brew"])
  else (Except.ok (), [ExtCmd.lookPath "brew"])

/-- Model of `installDocker` (lines 78-92): returns `true` only in the
already-installed branch; both fresh-install branches return `false`. -/
def installDocker (e : Env) : Bool × List ExtCmd :=
  if e.dockerBrewInstalled then (true, [ExtCmd.brewList "docker"])
  else if e.brewInstallDockerOk = false then
    (false, [ExtCmd.brewList "docker", ExtCmd.brewInstall "docker"])
  else (false, [ExtCmd.brewList "docker", ExtCmd.brewInstall "docker"])

/-- Model of `checkDockerRunning` (lines 94-103); its argument is the current
outcome of `docker info`. -/
def checkDockerRunning (running : Bool) : Bool × List ExtCmd :=
  (running, [ExtCmd.dockerInfo])

/-- Model of `installColima` (lines 105-118): `true` only when already installed. -/
def installColima (e : Env) : Bool × List ExtCmd :=
  if e.colimaInstalled then (true, [ExtCmd.lookPath "colima"])
  else if e.brewInstallColimaOk = false then
    (false, [ExtCmd.lookPath "colima", ExtCmd.brewInstall "colima"])
  else (false, [ExtCmd.lookPath "colima", ExtCmd.brewInstall "colima"])

/-- Model of `checkColimaRunning` (lines 120-129); its argument is the current
outcome of `colima status`. -/
def checkColimaRunning (running : Bool) : Bool × List ExtCmd :=
  (running, [ExtCmd.colimaStatus])

/-- Model of `startColima` (lines 131-143): returns nothing; failures only print. -/
def startColima (e : Env) : List ExtCmd :=
  if e.colimaRunningInStart then [ExtCmd.colimaStatus]
  else [ExtCmd.colimaStatus, ExtCmd.colimaLaunch]

/-- Model of `installDDEV` (lines 145-158): `true` only when DDEV was already on the
search path; after a fresh install (successful or not) it returns `false`. -/
def installDDEV (e : Env) : Bool × List ExtCmd :=
  if e.ddevInstalled then (true, [ExtCmd.lookPath "ddev"])
  else if e.brewInstallDdevOk = false then
    (false, [ExtCmd.lookPath "ddev", ExtCmd.brewInstall "ddev/ddev/ddev"])
  else (false, [ExtCmd.lookPath "ddev", ExtCmd.brewInstall "ddev/ddev/ddev"])

/-- Model of `checkDDEVVersion` (lines 160-165): print-only. -/
def checkDDEVVersion (e : Env) : List ExtCmd :=
  if e.ddevOnPath2 then [ExtCmd.lookPath "ddev", ExtCmd.ddevVersionCmd]
  else [ExtCmd.lookPath "ddev"]

/-- The directory name derived from the project-name prompt (lines 208-216):
trim, then lower-case, then replace each space by `-`. -/
def derivedProjectName (input : List Char) : List Char :=
  goReplaceAll (goToLower (trimSpace input)) " ".toList "-".toList

/-- Model of `initDrupalProject` (lines 201-234): prompt for a name, reject an empty
trimmed name before any filesystem or external-process action, normalize it,
resolve the working directory, and run `composer create-project`. -/
def initDrupalProject (e : Env) : Except Unit String × List ExtCmd :=
  let projectName := trimSpace e.projectNameInput
  if projectName = [] then (Except.error (), [])
  else
    let projectName := goReplaceAll (goToLower projectName) " ".toList "-".toList
    if e.getwdOk = false then (Except.error (), [ExtCmd.getwd])
    else
      let projectPath := joinPath e.cwd (String.mk projectName)
      if e.composerCreateOk = false then
        (Except.error (), [ExtCmd.getwd, ExtCmd.composerCreate])
      else (Except.ok projectPath, [ExtCmd.getwd, ExtCmd.composerCreate])

/-- The project path `initDrupalProject` produces on success. -/
def projectPathD (e : Env) : String :=
  joinPath e.cwd (String.mk (derivedProjectName e.projectNameInput))

/-- Model of `initDDEVProject` (lines 279-298): skip (with success) when `.ddev`
already exists, else run `ddev config`. -/
def initDDEVProject (e : Env) : Except Unit Unit × List ExtCmd :=
  if e.ddevDirExists then (Except.ok (), [])
  else if e.ddevConfigOk = false then (Except.error (), [ExtCmd.ddevConfig])
  else (Except.ok (), [ExtCmd.ddevConfig])

/-- Model of `startDDEV` (lines 300-312). -/
def startDDEV (e : Env) : Except Unit Unit × List ExtCmd :=
  if e.ddevStartOk = false then (Except.error (), [ExtCmd.ddevLaunch])
  else (Except.ok (), [ExtCmd.ddevLaunch])

/-- The fixed composer command sequence of `installDrupalDependencies`
(lines 317-333). -/
def packages : List (List String) :=
  [["composer", "install"],
   ["composer", "require", "drupal/core-dev", "--dev", "-W"],
   ["composer", "require", "drush/drush"],
   ["composer", "require", "drupal/admin_toolbar"],
   ["composer", "require", "drupal/token"],
   ["composer", "require", "drupal/pathauto"],
   ["composer", "require", "drupal/config_ignore"],
   ["composer", "require", "drupal/config_split"],
   ["composer", "require", "drupal/devel"],
   ["composer", "require", "drupal/environment_indicator"],
   ["composer", "require", "drupal/better_exposed_filters"],
   ["composer", "require", "drupal/key"],
   ["composer", "require", "drupal/webprofiler"],
   ["composer", "require", "drupal/diff:^2.0@beta"],
   ["composer", "require", "drupal/ultimate_cron:^2.0@beta"]]

/-- The loop body of `installDrupalDependencies` (lines 335-344): run each
`ddev <pkg...>` in order, stopping at the first failure. -/
def runDdevSeq (ok : List String → Bool) : List (List String) →
    Except Unit Unit × List ExtCmd
  | [] => (Except.ok (), [])
  | p :: rest =>
    if ok p = false then (Except.error (), [ExtCmd.ddevRun p])
    else
      let r := runDdevSeq ok rest
      (r.1, ExtCmd.ddevRun p :: r.2)

/-- Model of `installDrupalDependencies` (lines 314-348). -/
def installDrupalDependencies (e : Env) : Except Unit Unit × List ExtCmd :=
  runDdevSeq e.ddevCmdOk packages

/-- Model of `installDrupalSite` (lines 350-366). -/
def installDrupalSite (e : Env) : Except Unit Unit × List ExtCmd :=
  if e.siteInstallOk = false then (Except.error (), [ExtCmd.drushSiteInstall])
  else (Except.ok (), [ExtCmd.drushSiteInstall])

/-- The fixed module list of `enableDrupalModules` (lines 371-376). -/
def drupalModules : List String :=
  ["admin_toolbar", "config_split", "devel", "environment_indicator",
   "environment_indicator_ui", "environment_indicator_toolbar",
   "token", "pathauto", "config_ignore", "better_exposed_filters",
   "key", "webprofiler", "diff", "ultimate_cron", "devel_generate"]

/-- Model of `enableDrupalModules` (lines 368-390): one `ddev drush en -y <modules>`. -/
def enableDrupalModules (e : Env) : Except Unit Unit × List ExtCmd :=
  if e.modulesOk = false then (Except.error (), [ExtCmd.drushEnableModules])
  else (Except.ok (), [ExtCmd.drushEnableModules])

/-- Model of `importDrupalConfig` (lines 392-412): a missing `config/sync` directory
is only a warning (the step still reports success); otherwise run
`ddev drush config:import`. -/
def importDrupalConfig (e : Env) (projectPath : String) (fs : FSState) :
    Except Unit Unit × List ExtCmd :=
  let importPath := joinPath (joinPath projectPath "config") "sync"
  if statExists fs importPath = false then (Except.ok (), [])
  else if e.configImportOk = false then
    (Except.error (), [ExtCmd.drushConfigImport])
  else (Except.ok (), [ExtCmd.drushConfigImport])

/-- Model of `generateDrupalContent` (lines 414-447): the prompt answer is
lower-cased and trimmed; anything but `"y"` skips the step with success;
otherwise generate users, then content, stopping at the first failure. -/
def generateDrupalContent (e : Env) : Except Unit Unit × List ExtCmd :=
  let response := trimSpace (goToLower e.genResponse)
  if response ≠ "y".toList then (Except.ok (), [])
  else if e.genUsersOk = false then (Except.error (), [ExtCmd.drushGenUsers])
  else if e.genContentOk = false then
    (Except.error (), [ExtCmd.drushGenUsers, ExtCmd.drushGenContent])
  else (Except.ok (), [ExtCmd.drushGenUsers, ExtCmd.drushGenContent])

/-- Model of `getSiteURL` (lines 449-477): `ddev describe --json-output`, then the
defensive extraction; every failure path returns `""`. -/
def getSiteURL (e : Env) : String × List ExtCmd :=
  if e.describeOk = false then ("", [ExtCmd.ddevDescribe])
  else (getSiteURLExtract e.describeJson, [ExtCmd.ddevDescribe])

/-- Model of `selectDockerProvider` (lines 502-516): only the trimmed input `"2"`
selects Colima; everything else defaults to Docker Desktop. -/
def selectDockerProvider (input : List Char) : String :=
  if trimSpace input = "2".toList then "colima" else "docker"

/-! ### `main` (lines 518-597) -/

/-- The settings oracle assembled from the run environment. -/
def settingsOracleOf (e : Env) : SettingsOracle :=
  { mkdirOk := e.mkdirOk, writeSettingsOk := e.writeSettingsOk,
    writeIndicatorOk := e.writeIndicatorOk,
    writeSettingsYmlOk := e.writeSettingsYmlOk }

/-- Model of `setupDrupalSettings` as invoked by `main` at a given project path. -/
def setupAt (e : Env) (p : String) : Except SettingsErr FSState :=
  setupDrupalSettings p (settingsOracleOf e) e.indicatorYML e.settingsYML e.fs0

/-- The tail of `main` from the `installDDEV` gate (line 552) to the end
(line 596), accumulating the step trace onto `t` and stopping at the first
fatal failure with exit code 1. -/
def mainTail (e : Env) (t : List Step) : Nat × List Step :=
  let t1 := t ++ [Step.ddevInstall]
  if (installDDEV e).1 = false then (1, t1)
  else
    let t2 := t1 ++ [Step.ddevVersionCheck]
    match (initDrupalProject e).1 with
    | Except.error _ => (1, t2 ++ [Step.projectInit])
    | Except.ok projectPath =>
      let t3 := t2 ++ [Step.projectInit]
      match (initDDEVProject e).1 with
      | Except.error _ => (1, t3 ++ [Step.ddevInit])
      | Except.ok _ =>
        let t4 := t3 ++ [Step.ddevInit]
        match (startDDEV e).1 with
        | Except.error _ => (1, t4 ++ [Step.ddevStart])
        | Except.ok _ =>
          let t5 := t4 ++ [Step.ddevStart]
          match (installDrupalDependencies e).1 with
          | Except.error _ => (1, t5 ++ [Step.depsInstall])
          | Except.ok _ =>
            let t6 := t5 ++ [Step.depsInstall]
            match setupAt e projectPath with
            | Except.error _ => (1, t6 ++ [Step.settingsSetup])
            | Except.ok fs1 =>
              let t7 := t6 ++ [Step.settingsSetup]
              match (installDrupalSite e).1 with
              | Except.error _ => (1, t7 ++ [Step.siteInstall])
              | Except.ok _ =>
                let t8 := t7 ++ [Step.siteInstall]
                match (enableDrupalModules e).1 with
                | Except.error _ => (1, t8 ++ [Step.modulesEnable])
                | Except.ok _ =>
                  let t9 := t8 ++ [Step.modulesEnable]
                  match (importDrupalConfig e projectPath fs1).1 with
                  | Except.error _ => (1, t9 ++ [Step.configImport])
                  | Except.ok _ =>
                    let _gen := generateDrupalContent e
                    let t10 := t9 ++ [Step.configImport, Step.contentGenerate]
                    let _url := getSiteURL e
                    (0, t10 ++ [Step.siteURLQuery, Step.finalInstructions])

/-- Model of `main` (lines 518-597): provider prompt, prerequisite report, Homebrew
gate, backend branch, then the common tail. The result of `installDocker`
(line 536) and of `installColima` (line 542) is discarded. -/
def mainRun (e : Env) : Nat × List Step :=
  let dockerProvider := selectDockerProvider e.providerInput
  let t0 : List Step := [Step.selectProvider, Step.checkPrereqs]
  match (checkHomebrew e).1 with
  | Except.error _ => (1, t0 ++ [Step.homebrewCheck])
  | Except.ok _ =>
    let t1 := t0 ++ [Step.homebrewCheck]
    if dockerProvider = "docker" then
      let _ignored := installDocker e
      let t2 := t1 ++ [Step.dockerInstall]
      if (checkDockerRunning e.dockerRunning).1 = false then
        (1, t2 ++ [Step.dockerCheck])
      else mainTail e (t2 ++ [Step.dockerCheck])
    else
      let _ignored := installColima e
      let t2 := t1 ++ [Step.colimaInstall]
      if (checkColimaRunning e.colimaRunning1).1 then
        mainTail e (t2 ++ [Step.colimaCheck])
      else
        let _launch := startColima e
        let t3 := t2 ++ [Step.colimaCheck, Step.colimaStart]
        if (checkColimaRunning e.colimaRunning2).1 = false then
          (1, t3 ++ [Step.colimaCheck])
        else mainTail e (t3 ++ [Step.colimaCheck])

/-! ### Derived characterizations of `main`'s behaviour -/

/-- Whether the `importDrupalConfig` step, as reached from `main`, reports
success (a missing sync directory is a skip, hence success). -/
def importStepOkB (e : Env) : Bool :=
  match setupAt e (projectPathD e) with
  | Except.ok fs1 => exceptOk (importDrupalConfig e (projectPathD e) fs1).1
  | Except.error _ => true

/-- Some step of the common tail reports failure to `main`. -/
def fatalTail (e : Env) : Bool :=
  !(installDDEV e).1 || !exceptOk (initDrupalProject e).1 ||
  !exceptOk (initDDEVProject e).1 || !exceptOk (startDDEV e).1 ||
  !exceptOk (installDrupalDependencies e).1 ||
  !exceptOk (setupAt e (projectPathD e)) ||
  !exceptOk (installDrupalSite e).1 || !exceptOk (enableDrupalModules e).1 ||
  !importStepOkB e

/-- The chosen container backend is (eventually) running. -/
def backendOkB (e : Env) : Bool :=
  if selectDockerProvider e.providerInput = "docker" then e.dockerRunning
  else e.colimaRunning1 || e.colimaRunning2

/-- Some fatal gate of `main` fails: missing Homebrew, backend not running
(and, for Colima, not startable), or a failing tail step. -/
def fatal (e : Env) : Bool :=
  !e.brewInstalled || !backendOkB e || fatalTail e

/-- The step trace the common tail appends, stopping at its first failure. -/
def tailTrace (e : Env) : List Step :=
  if (installDDEV e).1 = false then [Step.ddevInstall]
  else if exceptOk (initDrupalProject e).1 = false then
    [Step.ddevInstall, Step.ddevVersionCheck, Step.projectInit]
  else if exceptOk (initDDEVProject e).1 = false then
    [Step.ddevInstall, Step.ddevVersionCheck, Step.projectInit, Step.ddevInit]
  else if exceptOk (startDDEV e).1 = false then
    [Step.ddevInstall, Step.ddevVersionCheck, Step.projectInit, Step.ddevInit,
     Step.ddevStart]
  else if exceptOk (installDrupalDependencies e).1 = false then
    [Step.ddevInstall, Step.ddevVersionCheck, Step.projectInit, Step.ddevInit,
     Step.ddevStart, Step.depsInstall]
  else if exceptOk (setupAt e (projectPathD e)) = false then
    [Step.ddevInstall, Step.ddevVersionCheck, Step.projectInit, Step.ddevInit,
     Step.ddevStart, Step.depsInstall, Step.settingsSetup]
  else if exceptOk (installDrupalSite e).1 = false then
    [Step.ddevInstall, Step.ddevVersionCheck, Step.projectInit, Step.ddevInit,
     Step.ddevStart, Step.depsInstall, Step.settingsSetup, Step.siteInstall]
  else if exceptOk (enableDrupalModules e).1 = false then
    [Step.ddevInstall, Step.ddevVersionCheck, Step.projectInit, Step.ddevInit,
     Step.ddevStart, Step.depsInstall, Step.settingsSetup, Step.siteInstall,
     Step.modulesEnable]
  else if importStepOkB e = false then
    [Step.ddevInstall, Step.ddevVersionCheck, Step.projectInit, Step.ddevInit,
     Step.ddevStart, Step.depsInstall, Step.settingsSetup, Step.siteInstall,
     Step.modulesEnable, Step.configImport]
  else
    [Step.ddevInstall, Step.ddevVersionCheck, Step.projectInit, Step.ddevInit,
     Step.ddevStart, Step.depsInstall, Step.settingsSetup, Step.siteInstall,
     Step.modulesEnable, Step.configImport, Step.contentGenerate,
     Step.siteURLQuery, Step.finalInstructions]

/-- The complete tail trace of a fully successful run. -/
def tailFull : List Step :=
  [Step.ddevInstall, Step.ddevVersionCheck, Step.projectInit, Step.ddevInit,
   Step.ddevStart, Step.depsInstall, Step.settingsSetup, Step.siteInstall,
   Step.modulesEnable, Step.configImport, Step.contentGenerate,
   Step.siteURLQuery, Step.finalInstructions]

/-- The steps `main` runs before the common tail (branch dependent). -/
def preTrace (e : Env) : List Step :=
  [Step.selectProvider, Step.checkPrereqs, Step.homebrewCheck] ++
  (if selectDockerProvider e.providerInput = "docker" then
    [Step.dockerInstall, Step.dockerCheck]
   else if e.colimaRunning1 then [Step.colimaInstall, Step.colimaCheck]
   else [Step.colimaInstall, Step.colimaCheck, Step.colimaStart,
         Step.colimaCheck])

/-- The whole step trace of a run, stopping at the first fatal failure. -/
def runTrace (e : Env) : List Step :=
  if e.brewInstalled = false then
    [Step.selectProvider, Step.checkPrereqs, Step.homebrewCheck]
  else if backendOkB e = false then preTrace e
  else preTrace e ++ tailTrace e

theorem initDrupalProject_ok_path {e : Env} {p : String}
    (h : (initDrupalProject e).1 = Except.ok p) : p = projectPathD e := by
  unfold initDrupalProject at h
  simp only at h
  split at h
  · simp at h
  · split at h
    · simp at h
    · split at h
      · simp at h
      · simp only [Prod.fst] at h
        cases h
        rfl

theorem mainTail_spec (e : Env) (t : List Step) :
    (mainTail e t).1 = (if fatalTail e then 1 else 0) ∧
    (mainTail e t).2 = t ++ tailTrace e := by
  unfold mainTail fatalTail tailTrace
  cases h1 : (installDDEV e).1 with
  | false => simp [h1]
  | true =>
    simp only [h1, Bool.not_true, Bool.false_or, Bool.true_eq_false, if_false]
    cases h2 : (initDrupalProject e).1 with
    | error u => simp [h2, exceptOk]
    | ok p =>
      have hp := initDrupalProject_ok_path h2
      subst hp
      simp only [h2, exceptOk, Bool.not_true, Bool.false_or, if_false,
        Bool.true_eq_false]
      cases h3 : (initDDEVProject e).1 with
      | error u => simp [h3, exceptOk]
      | ok u =>
        simp only [h3, exceptOk, Bool.not_true, Bool.false_or, if_false,
          Bool.true_eq_false]
        cases h4 : (startDDEV e).1 with
        | error u => simp [h4, exceptOk]
        | ok u =>
          simp only [h4, exceptOk, Bool.not_true, Bool.false_or, if_false,
            Bool.true_eq_false]
          cases h5 : (installDrupalDependencies e).1 with
          | error u => simp [h5, exceptOk]
          | ok u =>
            simp only [h5, exceptOk, Bool.not_true, Bool.false_or, if_false,
              Bool.true_eq_false]
            cases h6 : setupAt e (projectPathD e) with
            | error u => simp [h6, exceptOk]
            | ok fs1 =>
              simp only [h6, exceptOk, Bool.not_true, Bool.false_or, if_false,
                Bool.true_eq_false]
              cases h7 : (installDrupalSite e).1 with
              | error u => simp [h7, exceptOk]
              | ok u =>
                simp only [h7, exceptOk, Bool.not_true, Bool.false_or,
                  if_false, Bool.true_eq_false]
                cases h8 : (enableDrupalModules e).1 with
                | error u => simp [h8, exceptOk]
                | ok u =>
                  simp only [h8, exceptOk, Bool.not_true, Bool.false_or,
                    if_false, Bool.true_eq_false]
                  cases h9 : (importDrupalConfig e (projectPathD e) fs1).1 with
                  | error u =>
                    simp [importStepOkB, h6, h9, exceptOk]
                  | ok u =>
                    simp [importStepOkB, h6, h9, exceptOk]

theorem mainRun_spec (e : Env) :
    (mainRun e).1 = (if fatal e then 1 else 0) ∧ (mainRun e).2 = runTrace e := by
  unfold mainRun fatal runTrace backendOkB checkHomebrew preTrace
  cases hb : e.brewInstalled with
  | false => simp [hb]
  | true =>
    simp only [hb, Bool.true_eq_false, if_false, Bool.not_true, Bool.false_or]
    by_cases hp : selectDockerProvider e.providerInput = "docker"
    · simp only [hp, if_true, checkDockerRunning]
      cases hd : e.dockerRunning with
      | false => simp [hd]
      | true =>
        have hm := mainTail_spec e
          ([Step.selectProvider, Step.checkPrereqs] ++ [Step.homebrewCheck] ++
            [Step.dockerInstall] ++ [Step.dockerCheck])
        simp only [hd, Bool.not_true, Bool.false_or, Bool.true_eq_false,
          if_false]
        refine ⟨hm.1, ?_⟩
        rw [hm.2]
        simp
    · simp only [hp, if_false, checkColimaRunning]
      cases hc1 : e.colimaRunning1 with
      | true =>
        have hm := mainTail_spec e
          ([Step.selectProvider, Step.checkPrereqs] ++ [Step.homebrewCheck] ++
            [Step.colimaInstall] ++ [Step.colimaCheck])
        simp only [hc1, if_true, Bool.true_or, Bool.not_true, Bool.false_or]
        refine ⟨hm.1, ?_⟩
        rw [hm.2]
        simp
      | false =>
        simp only [hc1, Bool.false_eq_true, if_false, Bool.false_or]
        cases hc2 : e.colimaRunning2 with
        | false => simp [hc2]
        | true =>
          have hm := mainTail_spec e
            ([Step.selectProvider, Step.checkPrereqs] ++ [Step.homebrewCheck] ++
              [Step.colimaInstall] ++ [Step.colimaCheck, Step.colimaStart] ++
              [Step.colimaCheck])
          simp only [hc2, Bool.not_true, Bool.false_or, Bool.true_eq_false,
            if_false]
          refine ⟨hm.1, ?_⟩
          rw [hm.2]
          simp

theorem tailTrace_of_ok {e : Env} (h : fatalTail e = false) :
    tailTrace e = tailFull := by
  unfold fatalTail at h
  simp only [Bool.or_eq_false_iff, Bool.not_eq_false'] at h
  obtain ⟨⟨⟨⟨⟨⟨⟨⟨h1, h2⟩, h3⟩, h4⟩, h5⟩, h6⟩, h7⟩, h8⟩, h9⟩
    : ((((((((_ ∧ _) ∧ _) ∧ _) ∧ _) ∧ _) ∧ _) ∧ _) ∧ _) := h
  unfold tailTrace tailFull
  simp [h1, h2, h3, h4, h5, h6, h7, h8, h9]

theorem tailTrace_no_late {e : Env} (h : fatalTail e = true) :
    Step.contentGenerate ∉ tailTrace e ∧ Step.siteURLQuery ∉ tailTrace e ∧
    Step.finalInstructions ∉ tailTrace e := by
  unfold tailTrace
  split
  · decide
  · split
    · decide
    · split
      · decide
      · split
        · decide
        · split
          · decide
          · split
            · decide
            · split
              · decide
              · split
                · decide
                · split
                  · decide
                  · rename_i h1 h2 h3 h4 h5 h6 h7 h8 h9
                    exfalso
                    simp only [Bool.not_eq_false] at h1 h2 h3 h4 h5 h6 h7 h8 h9
                    unfold fatalTail at h
                    simp [h1, h2, h3, h4, h5, h6, h7, h8, h9] at h

theorem tailTrace_isPrefixTailFull (e : Env) : tailTrace e <+: tailFull := by
  unfold tailTrace tailFull
  split
  · exact ⟨_, rfl⟩
  · split
    · exact ⟨_, rfl⟩
    · split
      · exact ⟨_, rfl⟩
      · split
        · exact ⟨_, rfl⟩
        · split
          · exact ⟨_, rfl⟩
          · split
            · exact ⟨_, rfl⟩
            · split
              · exact ⟨_, rfl⟩
              · split
                · exact ⟨_, rfl⟩
                · split
                  · exact ⟨_, rfl⟩
                  · exact ⟨[], List.append_nil _⟩

theorem preTrace_no_late (e : Env) :
    Step.contentGenerate ∉ preTrace e ∧ Step.siteURLQuery ∉ preTrace e ∧
    Step.finalInstructions ∉ preTrace e := by
  unfold preTrace
  split
  · decide
  · split
    · decide
    · decide

/-! ### Lemmas for the project-name normalization -/

theorem toNat_ofNat_of_small {n : Nat} (h : n < 55296) :
    (Char.ofNat n).toNat = n := by
  rw [Char.ofNat, dif_pos (Or.inl h)]
  simp [Char.ofNatAux, Char.toNat, UInt32.toNat, BitVec.toNat_ofNatLt]

theorem goToLowerChar_not_upper (c : Char) :
    ¬(65 ≤ (goToLowerChar c).toNat ∧ (goToLowerChar c).toNat ≤ 90) := by
  unfold goToLowerChar
  by_cases h : 65 ≤ c.toNat ∧ c.toNat ≤ 90
  · rw [if_pos h]
    rw [toNat_ofNat_of_small (by omega)]
    omega
  · rw [if_neg h]
    exact h

theorem goToLower_mem_not_upper {s : List Char} {c : Char}
    (hc : c ∈ goToLower s) : ¬(65 ≤ c.toNat ∧ c.toNat ≤ 90) := by
  unfold goToLower at hc
  obtain ⟨x, _, rfl⟩ := List.mem_map.mp hc
  exact goToLowerChar_not_upper x

theorem derivedProjectName_spec (input : List Char) :
    derivedProjectName input
      = (goToLower (trimSpace input)).map (fun c => if c = ' ' then '-' else c) := by
  unfold derivedProjectName
  have : (" ".toList : List Char) = [' '] := rfl
  rw [this]
  have : ("-".toList : List Char) = ['-'] := rfl
  rw [this]
  exact goReplaceAll_single ' ' '-' (goToLower (trimSpace input))

theorem derivedProjectName_no_space_no_upper (input : List Char) :
    ∀ c ∈ derivedProjectName input,
      c ≠ ' ' ∧ ¬(65 ≤ c.toNat ∧ c.toNat ≤ 90) := by
  intro c hc
  rw [derivedProjectName_spec] at hc
  obtain ⟨x, hx, rfl⟩ := List.mem_map.mp hc
  constructor
  · by_cases h : x = ' '
    · simp [h]
    · simp only [h, if_false]
      exact h
  · have hxu := goToLower_mem_not_upper hx
    by_cases h : x = ' '
    · simp only [h, if_true]
      decide
    · simpa [h] using hxu

theorem trimSpace_all_space {s : List Char} (h : ∀ c ∈ s, goIsSpace c = true) :
    trimSpace s = [] := by
  have hleft : trimLeft s = [] := by
    induction s with
    | nil => rfl
    | cons c rest ih =>
      have hc := h c (by simp)
      simp only [trimLeft, hc, if_true]
      exact ih (fun x hx => h x (by simp [hx]))
  unfold trimSpace
  rw [hleft]
  rfl

/-! ### Shared concrete environment for witnesses -/

/-- A concrete run environment in which every gate passes: all tools
present, every external command succeeds, the scaffolded settings file
exists with the sync-path fragment as content. -/
def baseEnv : Env where
  brewInstalled := true
  providerInput := "1".toList
  dockerBrewInstalled := true
  brewInstallDockerOk := true
  dockerRunning := true
  colimaInstalled := true
  brewInstallColimaOk := true
  colimaRunning1 := true
  colimaRunningInStart := true
  colimaStartOk := true
  colimaRunning2 := true
  ddevInstalled := true
  brewInstallDdevOk := true
  ddevOnPath2 := true
  projectNameInput := "My Site".toList
  getwdOk := true
  cwd := "/home/user"
  composerCreateOk := true
  ddevDirExists := false
  ddevConfigOk := true
  ddevStartOk := true
  ddevCmdOk := fun _ => true
  fs0 := { dirs := [],
           files := [("/home/user/my-site/web/sites/default/settings.ddev.php",
                      oldSyncFrag)] }
  mkdirOk := true
  writeSettingsOk := true
  writeIndicatorOk := true
  writeSettingsYmlOk := true
  indicatorYML := []
  settingsYML := []
  siteInstallOk := true
  modulesOk := true
  configImportOk := true
  genResponse := "n".toList
  genUsersOk := true
  genContentOk := true
  describeOk := true
  describeJson := some (Json.obj [("raw",
    Json.arr [Json.obj [("https_url", Json.str "https://example.ddev.site")]])])

/-! ### Claim theorems -/

/-- Claim C1: for every string entered at the project-name prompt, the
derived directory name contains no space and no upper-case ASCII letter,
and equals the trimmed, lower-cased input with each space replaced by `-`;
an input that is empty or consists only of white space is rejected:
`initDrupalProject` returns an error having performed no filesystem or
external-process action; the input `"  My Site  "` yields `my-site`. -/
theorem C1_project_name_normalization :
    (∀ input : List Char, ∀ c ∈ derivedProjectName input,
      c ≠ ' ' ∧ ¬(65 ≤ c.toNat ∧ c.toNat ≤ 90)) ∧
    (∀ input : List Char, derivedProjectName input
      = (goToLower (trimSpace input)).map (fun c => if c = ' ' then '-' else c)) ∧
    (∀ e : Env, trimSpace e.projectNameInput = [] →
      initDrupalProject e = (Except.error (), [])) ∧
    (∀ e : Env, (∀ c ∈ e.projectNameInput, goIsSpace c = true) →
      initDrupalProject e = (Except.error (), [])) ∧
    derivedProjectName "  My Site  ".toList = "my-site".toList := by
  refine ⟨?_, derivedProjectName_spec, ?_, ?_, by decide⟩
  · intro input
    exact derivedProjectName_no_space_no_upper input
  · intro e h
    simp [initDrupalProject, h]
  · intro e h
    simp [initDrupalProject, trimSpace_all_space h]

theorem C1_witness :
    initDrupalProject { baseEnv with projectNameInput := "   ".toList }
      = (Except.error (), []) ∧
    ('y' ≠ ' ' ∧ ¬(65 ≤ 'y'.toNat ∧ 'y'.toNat ≤ 90)) :=
  ⟨C1_project_name_normalization.2.2.2.1 _ (by decide),
   C1_project_name_normalization.1 "  My Site  ".toList 'y' (by decide)⟩

/-- Claim C6: each "ensure installed" step is idempotent when already
satisfied: with the tool present, the function reports success (`true`) and
its command trace is exactly the presence check — zero install actions. -/
theorem C6_idempotent_installs :
    ∀ e : Env,
      (e.dockerBrewInstalled = true →
        installDocker e = (true, [ExtCmd.brewList "docker"]) ∧
        ∀ c ∈ (installDocker e).2, isInstallAction c = false) ∧
      (e.colimaInstalled = true →
        installColima e = (true, [ExtCmd.lookPath "colima"]) ∧
        ∀ c ∈ (installColima e).2, isInstallAction c = false) ∧
      (e.ddevInstalled = true →
        installDDEV e = (true, [ExtCmd.lookPath "ddev"]) ∧
        ∀ c ∈ (installDDEV e).2, isInstallAction c = false) := by
  intro e
  refine ⟨fun h => ?_, fun h => ?_, fun h => ?_⟩ <;>
    simp [installDocker, installColima, installDDEV, h, isInstallAction]

theorem C6_witness :
    installDDEV baseEnv = (true, [ExtCmd.lookPath "ddev"]) :=
  (((C6_idempotent_installs baseEnv).2.2) rfl).1

/-- Claim C7: in the container-backend prompt, exactly one trimmed input,
`"2"`, selects Colima; every other input, including the empty one, selects
Docker Desktop. -/
theorem C7_provider_selection :
    (∀ input : List Char,
      (selectDockerProvider input = "colima" ↔ trimSpace input = "2".toList) ∧
      (selectDockerProvider input = "docker" ↔ trimSpace input ≠ "2".toList)) ∧
    selectDockerProvider [] = "docker" := by
  refine ⟨fun input => ?_, rfl⟩
  unfold selectDockerProvider
  by_cases h : trimSpace input = "2".toList
  · simp [h]
  · simp [h]

theorem C7_witness :
    selectDockerProvider " 2 ".toList = "colima" ∧
    selectDockerProvider "1".toList = "docker" :=
  ⟨((C7_provider_selection.1 " 2 ".toList).1).mpr (by decide),
   ((C7_provider_selection.1 "1".toList).2).mpr (by decide)⟩

/-! ### Further helper lemmas about traces and the fatal predicate -/

theorem preTrace_no_tailSteps (e : Env) :
    Step.ddevInstall ∉ preTrace e ∧ Step.projectInit ∉ preTrace e := by
  unfold preTrace
  split_ifs <;> decide

theorem tailTrace_has_ddevInstall (e : Env) :
    Step.ddevInstall ∈ tailTrace e := by
  unfold tailTrace
  split_ifs <;> decide

theorem fatal_false_parts {e : Env} (h : fatal e = false) :
    e.brewInstalled = true ∧ backendOkB e = true ∧ fatalTail e = false := by
  unfold fatal at h
  simp only [Bool.or_eq_false_iff, Bool.not_eq_false'] at h
  exact ⟨h.1.1, h.1.2, h.2⟩

theorem runTrace_of_ok {e : Env} (h : fatal e = false) :
    runTrace e = preTrace e ++ tailFull := by
  obtain ⟨h1, h2, h3⟩ := fatal_false_parts h
  unfold runTrace
  simp [h1, h2, tailTrace_of_ok h3]

theorem osMkdirAll_dirs {fs fs' : FSState} {ok : Bool} {p : String}
    (h : osMkdirAll fs ok p = some fs') : fs'.dirs = p :: fs.dirs := by
  unfold osMkdirAll at h
  split at h
  · cases h; rfl
  · cases h

theorem osWriteFile_dirs {fs fs' : FSState} {ok : Bool} {p : String}
    {c : List Char} (h : osWriteFile fs ok p c = some fs') :
    fs'.dirs = fs.dirs := by
  unfold osWriteFile at h
  split at h
  · cases h; rfl
  · cases h

/-! ### Claims C8, C10, C5, C9 -/

/-- Claim C8: `installDDEV` returns `true` only when DDEV was already on
the search path; when DDEV is absent and the Homebrew install succeeds it
still returns `false`, so `main` (with its earlier gates passed) exits with
code 1 immediately after the successful fresh installation, before the
scaffold step runs. -/
theorem C8_fresh_ddev_install_exits :
    ∀ e : Env, ((installDDEV e).1 = true ↔ e.ddevInstalled = true) ∧
      (e.ddevInstalled = false → e.brewInstallDdevOk = true →
        (installDDEV e).1 = false ∧
        (installDDEV e).2
          = [ExtCmd.lookPath "ddev", ExtCmd.brewInstall "ddev/ddev/ddev"] ∧
        (e.brewInstalled = true → backendOkB e = true →
          (mainRun e).1 = 1 ∧ Step.projectInit ∉ (mainRun e).2)) := by
  intro e
  constructor
  · unfold installDDEV
    cases hd : e.ddevInstalled with
    | false =>
      cases hb : e.brewInstallDdevOk <;> simp
    | true => simp
  · intro hd hb
    have hres : (installDDEV e).1 = false := by
      unfold installDDEV
      simp [hd, hb]
    refine ⟨hres, ?_, ?_⟩
    · unfold installDDEV
      simp [hd, hb]
    · intro hbrew hbackend
      have hm := mainRun_spec e
      have hft : fatalTail e = true := by
        unfold fatalTail
        simp [hres]
      have hfatal : fatal e = true := by
        unfold fatal
        simp [hft]
      constructor
      · rw [hm.1, hfatal]
        rfl
      · rw [hm.2]
        unfold runTrace
        simp only [hbrew, hbackend, Bool.true_eq_false, if_false]
        rw [List.mem_append]
        rintro (hpre | htail)
        · exact (preTrace_no_tailSteps e).2 hpre
        · unfold tailTrace at htail
          rw [if_pos hres] at htail
          simp at htail

theorem C8_witness :
    (installDDEV { baseEnv with ddevInstalled := false }).1 = false ∧
    (mainRun { baseEnv with ddevInstalled := false }).1 = 1 :=
  ⟨((C8_fresh_ddev_install_exits { baseEnv with ddevInstalled := false }).2
      rfl rfl).1,
   (((C8_fresh_ddev_install_exits { baseEnv with ddevInstalled := false }).2
      rfl rfl).2.2 rfl rfl).1⟩

/-- Claim C10: in the Docker Desktop branch of `main`, the boolean result
of `installDocker` is discarded — changing its outcome fields never changes
the exit code — and the run aborts in this branch (exit code 1, before the
DDEV step) exactly when the `docker info` running-check fails. -/
theorem C10_docker_result_discarded :
    ∀ e : Env, selectDockerProvider e.providerInput = "docker" →
      e.brewInstalled = true →
      (∀ b b' : Bool,
        (mainRun { e with dockerBrewInstalled := b,
                          brewInstallDockerOk := b' }).1 = (mainRun e).1) ∧
      (e.dockerRunning = false →
        (mainRun e).1 = 1 ∧ Step.ddevInstall ∉ (mainRun e).2) ∧
      (e.dockerRunning = true → Step.ddevInstall ∈ (mainRun e).2) := by
  intro e hp hbrew
  refine ⟨?_, ?_, ?_⟩
  · intro b b'
    have h1 := (mainRun_spec { e with dockerBrewInstalled := b, brewInstallDockerOk := b' }).1
    have h2 := (mainRun_spec e).1
    rw [h1, h2]
    have : fatal { e with dockerBrewInstalled := b, brewInstallDockerOk := b' } = fatal e := rfl
    rw [this]
  · intro hd
    have hm := mainRun_spec e
    have hbackend : backendOkB e = false := by
      unfold backendOkB
      simp [hp, hd]
    have hfatal : fatal e = true := by
      unfold fatal
      simp [hbackend]
    refine ⟨by rw [hm.1, hfatal]; rfl, ?_⟩
    rw [hm.2]
    unfold runTrace
    simp only [hbrew, hbackend, Bool.true_eq_false, if_false, if_true]
    exact (preTrace_no_tailSteps e).1
  · intro hd
    have hm := mainRun_spec e
    have hbackend : backendOkB e = true := by
      unfold backendOkB
      simp [hp, hd]
    rw [hm.2]
    unfold runTrace
    simp only [hbrew, hbackend, Bool.true_eq_false, if_false]
    exact List.mem_append_right _ (tailTrace_has_ddevInstall e)

theorem C10_witness :
    (mainRun { baseEnv with dockerRunning := false }).1 = 1 ∧
    Step.ddevInstall ∈ (mainRun baseEnv).2 :=
  ⟨((C10_docker_result_discarded { baseEnv with dockerRunning := false }
      rfl rfl).2.1 rfl).1,
   (C10_docker_result_discarded baseEnv rfl rfl).2.2 rfl⟩

/-- Claim C5: the content-generation step runs only when the prompt answer,
lower-cased and trimmed, is exactly the affirmative token `"y"`: any other
answer (in particular `"n"`) invokes no generation command and reports the
step as skipped with success; and since the generation outcome is not a
fatal gate, a run whose fatal gates all pass exits 0 and still executes the
final steps, whether generation was skipped or failed. -/
theorem C5_generation_gate :
    (∀ e : Env, trimSpace (goToLower e.genResponse) ≠ "y".toList →
      generateDrupalContent e = (Except.ok (), [])) ∧
    (∀ e : Env, trimSpace (goToLower e.genResponse) = "y".toList →
      e.genUsersOk = false →
      generateDrupalContent e = (Except.error (), [ExtCmd.drushGenUsers])) ∧
    (∀ e : Env, fatal e = false →
      (mainRun e).1 = 0 ∧ Step.contentGenerate ∈ (mainRun e).2 ∧
      Step.siteURLQuery ∈ (mainRun e).2 ∧
      Step.finalInstructions ∈ (mainRun e).2) := by
  refine ⟨?_, ?_, ?_⟩
  · intro e h
    simp only [generateDrupalContent]
    rw [if_pos h]
  · intro e h hu
    simp only [generateDrupalContent]
    rw [if_neg (not_not_intro h), if_pos hu]
  · intro e h
    have hm := mainRun_spec e
    refine ⟨by rw [hm.1, h]; rfl, ?_, ?_, ?_⟩ <;>
      rw [hm.2, runTrace_of_ok h] <;>
      exact List.mem_append_right _ (by decide)

theorem C5_witness :
    generateDrupalContent baseEnv = (Except.ok (), []) ∧
    (mainRun baseEnv).1 = 0 :=
  ⟨C5_generation_gate.1 baseEnv (by decide),
   (C5_generation_gate.2.2 baseEnv (by decide)).1⟩

/-- Claim C9: the final existence check of `setupDrupalSettings` never
takes its error branch: whenever control reaches it, the `config/sync`
directory was created by the initial `MkdirAll` of the same call (which
must have succeeded for control to proceed) and no later write removes a
directory, so the `configDirNotFound` error return is unreachable. -/
theorem C9_config_check_unreachable :
    ∀ (p : String) (o : SettingsOracle) (iy sy : List Char) (fs : FSState),
      setupDrupalSettings p o iy sy fs
        ≠ Except.error SettingsErr.configDirNotFound := by
  intro p o iy sy fs h
  simp only [setupDrupalSettings] at h
  split at h
  · simp at h
  · rename_i fs1 heq1
    split at h
    · simp at h
    · rename_i content heq2
      split at h
      · simp at h
      · rename_i fs2 heq3
        split at h
        · simp at h
        · rename_i fs3 heq4
          split at h
          · simp at h
          · rename_i fs4 heq5
            split at h
            · rename_i hstat
              have hd1 := osMkdirAll_dirs heq1
              have hd2 := osWriteFile_dirs heq3
              have hd3 := osWriteFile_dirs heq4
              have hd4 := osWriteFile_dirs heq5
              unfold statExists at hstat
              rw [hd4, hd3, hd2, hd1] at hstat
              simp at hstat
            · simp at h

theorem C9_witness :
    setupDrupalSettings "/home/user/my-site"
        { mkdirOk := true, writeSettingsOk := true, writeIndicatorOk := true,
          writeSettingsYmlOk := true } [] [] baseEnv.fs0
      ≠ Except.error SettingsErr.configDirNotFound :=
  C9_config_check_unreachable "/home/user/my-site" _ [] [] baseEnv.fs0

theorem fatal_tail_of_fatal {e : Env} (h : fatal e = true)
    (hbrew : ¬e.brewInstalled = false) (hback : ¬backendOkB e = false) :
    fatalTail e = true := by
  unfold fatal at h
  rw [Bool.not_eq_false] at hbrew hback
  simpa [hbrew, hback] using h

/-- Claim C4: the process exits 0 exactly when no fatal gate fails and 1
otherwise; the executed steps always form a prefix of the branch's full
step sequence, which is completed exactly when no fatal failure occurs (so
nothing runs past the first fatal failure — in particular no late step runs
once a fatal gate failed); and the content-generation inputs and outcomes
never change the exit code. -/
theorem C4_exit_codes :
    ∀ e : Env,
      ((mainRun e).1 = if fatal e then 1 else 0) ∧
      (mainRun e).2 <+: preTrace e ++ tailFull ∧
      ((mainRun e).2 = preTrace e ++ tailFull ↔ fatal e = false) ∧
      (fatal e = true → Step.contentGenerate ∉ (mainRun e).2 ∧
        Step.siteURLQuery ∉ (mainRun e).2 ∧
        Step.finalInstructions ∉ (mainRun e).2) ∧
      (∀ (r : List Char) (b b' : Bool),
        (mainRun { e with genResponse := r, genUsersOk := b,
                          genContentOk := b' }).1 = (mainRun e).1) := by
  intro e
  have hm := mainRun_spec e
  refine ⟨hm.1, ?_, ?_, ?_, ?_⟩
  · rw [hm.2]
    unfold runTrace
    split
    · unfold preTrace
      rw [List.append_assoc]
      exact List.prefix_append _ _
    · split
      · exact List.prefix_append _ _
      · exact (List.prefix_append_right_inj _).mpr (tailTrace_isPrefixTailFull e)
  · rw [hm.2]
    constructor
    · intro heq
      by_contra hne
      rw [Bool.not_eq_false] at hne
      unfold runTrace at heq
      have htfl : tailFull.length = 13 := by decide
      split at heq
      · have hlen := congrArg List.length heq
        simp only [List.length_append, htfl, List.length_cons,
          List.length_nil] at hlen
        omega
      · split at heq
        · have hlen := congrArg List.length heq
          simp only [List.length_append, htfl] at hlen
          omega
        · rename_i hbrew hback
          have hft : fatalTail e = true := fatal_tail_of_fatal hne hbrew hback
          have heqTail := List.append_cancel_left heq
          have hnl := (tailTrace_no_late hft).1
          rw [heqTail] at hnl
          exact hnl (by decide)
    · intro h
      rw [runTrace_of_ok h]
  · intro h
    rw [hm.2]
    unfold runTrace
    split
    · exact ⟨by decide, by decide, by decide⟩
    · split
      · exact ⟨fun hx => (preTrace_no_late e).1 hx,
          fun hx => (preTrace_no_late e).2.1 hx,
          fun hx => (preTrace_no_late e).2.2 hx⟩
      · rename_i hbrew hback
        have hft : fatalTail e = true := fatal_tail_of_fatal h hbrew hback
        have hp := preTrace_no_late e
        have ht := tailTrace_no_late hft
        refine ⟨?_, ?_, ?_⟩ <;> rw [List.mem_append]
        · rintro (hx | hx)
          · exact hp.1 hx
          · exact ht.1 hx
        · rintro (hx | hx)
          · exact hp.2.1 hx
          · exact ht.2.1 hx
        · rintro (hx | hx)
          · exact hp.2.2 hx
          · exact ht.2.2 hx
  · intro r b b'
    have h1 := (mainRun_spec { e with genResponse := r, genUsersOk := b, genContentOk := b' }).1
    rw [h1, hm.1]
    have hsame : fatal { e with genResponse := r, genUsersOk := b, genContentOk := b' } = fatal e := rfl
    rw [hsame]

theorem C4_witness :
    (mainRun baseEnv).2 = preTrace baseEnv ++ tailFull ∧
    Step.contentGenerate ∉ (mainRun { baseEnv with brewInstalled := false }).2 :=
  ⟨((C4_exit_codes baseEnv).2.2.1).mpr (by decide),
   ((C4_exit_codes { baseEnv with brewInstalled := false }).2.2.2.1
      (by decide)).1⟩

/-- Claim C2 counterexample: on a content holding two copies of the literal
fragment, the rewrite of `setupDrupalSettings` replaces both occurrences,
so the output is not the input with a single occurrence swapped — the claim
fails for that content. -/
theorem C2_counterexample :
    settingsRewrite (oldSyncFrag ++ oldSyncFrag) = newSyncFrag ++ newSyncFrag ∧
    ¬∃ a b : List Char, oldSyncFrag ++ oldSyncFrag = a ++ oldSyncFrag ++ b ∧
      settingsRewrite (oldSyncFrag ++ oldSyncFrag) = a ++ newSyncFrag ++ b := by
  have hres : settingsRewrite (oldSyncFrag ++ oldSyncFrag)
      = newSyncFrag ++ newSyncFrag := by decide
  refine ⟨hres, ?_⟩
  rintro ⟨a, b, hsplit, hrepl⟩
  rw [hres] at hrepl
  have hOld : oldSyncFrag.length = 24 := by decide
  have hNew : newSyncFrag.length = 14 := by decide
  have h1 := congrArg List.length hsplit
  have h2 := congrArg List.length hrepl
  simp only [List.length_append, hOld, hNew] at h1 h2
  omega

/-- Claim C2 (amended): the settings rewrite replaces every occurrence of
the literal fragment; in particular, for every content in which the
fragment occurs at exactly one position, the written output replaces that
occurrence once with the new fragment and is otherwise byte-identical. -/
theorem C2_settings_rewrite :
    ∀ content a b : List Char, content = a ++ oldSyncFrag ++ b →
      countOcc oldSyncFrag content = 1 →
      settingsRewrite content = a ++ newSyncFrag ++ b := by
  intro content a b hsplit hcount
  unfold settingsRewrite
  exact goReplaceAll_unique_occ (by decide) hsplit hcount

theorem C2_witness :
    settingsRewrite ("x".toList ++ oldSyncFrag ++ "y".toList)
      = "x".toList ++ newSyncFrag ++ "y".toList :=
  C2_settings_rewrite ("x".toList ++ oldSyncFrag ++ "y".toList)
    "x".toList "y".toList rfl (by decide)

theorem getSiteURLExtract_total :
    ∀ oj : Option Json, getSiteURLExtract oj = "" ∨
      SpecNestedURL oj (getSiteURLExtract oj) := by
  intro oj
  cases oj with
  | none => exact Or.inl rfl
  | some j =>
    cases j with
    | obj fields =>
      cases hr : jsonLookup fields "raw" with
      | none => exact Or.inl (by simp [getSiteURLExtract, hr])
      | some v =>
        cases v with
        | arr l =>
          cases l with
          | nil => exact Or.inl (by simp [getSiteURLExtract, hr])
          | cons first rest =>
            cases first with
            | obj project =>
              cases hu : jsonLookup project "https_url" with
              | none => exact Or.inl (by simp [getSiteURLExtract, hr, hu])
              | some w =>
                cases w with
                | str s =>
                  right
                  have hx : getSiteURLExtract (some (Json.obj fields)) = s := by
                    simp [getSiteURLExtract, hr, hu]
                  rw [hx]
                  exact ⟨fields, project, rest, rfl, hr, hu⟩
                | null => exact Or.inl (by simp [getSiteURLExtract, hr, hu])
                | boolean c => exact Or.inl (by simp [getSiteURLExtract, hr, hu])
                | num n => exact Or.inl (by simp [getSiteURLExtract, hr, hu])
                | arr l => exact Or.inl (by simp [getSiteURLExtract, hr, hu])
                | obj f => exact Or.inl (by simp [getSiteURLExtract, hr, hu])
            | null => exact Or.inl (by simp [getSiteURLExtract, hr])
            | boolean c => exact Or.inl (by simp [getSiteURLExtract, hr])
            | num n => exact Or.inl (by simp [getSiteURLExtract, hr])
            | str s => exact Or.inl (by simp [getSiteURLExtract, hr])
            | arr l => exact Or.inl (by simp [getSiteURLExtract, hr])
        | null => exact Or.inl (by simp [getSiteURLExtract, hr])
        | boolean c => exact Or.inl (by simp [getSiteURLExtract, hr])
        | num n => exact Or.inl (by simp [getSiteURLExtract, hr])
        | str s => exact Or.inl (by simp [getSiteURLExtract, hr])
        | obj f => exact Or.inl (by simp [getSiteURLExtract, hr])
    | null => exact Or.inl rfl
    | boolean c => exact Or.inl rfl
    | num n => exact Or.inl rfl
    | str s => exact Or.inl rfl
    | arr l => exact Or.inl rfl

theorem getSiteURLExtract_of_spec :
    ∀ (oj : Option Json) (s : String), SpecNestedURL oj s →
      getSiteURLExtract oj = s := by
  rintro oj s ⟨fields, project, rest, rfl, hraw, hurl⟩
  simp [getSiteURLExtract, hraw, hurl]

/-- Claim C3: the extraction of `getSiteURL` is total and defensive: for
every parse outcome its result is the empty string or a string standing at
the spec's nested position; when the document has key `"raw"` bound to a
non-empty array whose first element is an object with a string-valued
`"https_url"` field it returns that string, and it returns `""` in every
other case; the two end-to-end examples hold. -/
theorem C3_site_url_extraction :
    (∀ (oj : Option Json) (s : String), SpecNestedURL oj s →
      getSiteURLExtract oj = s) ∧
    (∀ oj : Option Json, (∀ s : String, ¬SpecNestedURL oj s) →
      getSiteURLExtract oj = "") ∧
    (∀ oj : Option Json, getSiteURLExtract oj = "" ∨
      SpecNestedURL oj (getSiteURLExtract oj)) ∧
    getSiteURLExtract (some (Json.obj [("raw", Json.arr
      [Json.obj [("https_url", Json.str "https://example.ddev.site")]])]))
      = "https://example.ddev.site" ∧
    getSiteURLExtract (some (Json.obj [])) = "" := by
  refine ⟨getSiteURLExtract_of_spec, ?_, getSiteURLExtract_total, rfl, rfl⟩
  intro oj h
  rcases getSiteURLExtract_total oj with h0 | h0
  · exact h0
  · exact absurd h0 (h _)

theorem C3_witness :
    getSiteURLExtract baseEnv.describeJson = "https://example.ddev.site" :=
  C3_site_url_extraction.1 baseEnv.describeJson "https://example.ddev.site"
    ⟨[("raw", Json.arr [Json.obj
        [("https_url", Json.str "https://example.ddev.site")]])],
     [("https_url", Json.str "https://example.ddev.site")], [], rfl, rfl, rfl⟩

end Drupal
